import Mathlib

/-!
Shallow embedding of the post-management route handlers of the blog backend
(`src/routes/posts.js`, with validation declarations in `src/utils/validators.js`).

Ids (Mongo ObjectIds) are modelled as strings, since every comparison in the
source goes through `toString()`.  Request bodies carry `Option String` fields:
`none` models an absent (`undefined`) JSON field.  Handlers are pure functions
from the document store (a list of posts) and the request data to a result
record holding the HTTP status, the new store, and the response payload.
-/

namespace Blog

/-- A like subdocument: `{ user: ObjectId }`. -/
structure Like where
  user : String
deriving DecidableEq, Repr

/-- A comment subdocument: `{ _id, user, content, createdAt }`. -/
structure Comment where
  id : String
  user : String
  content : String
  createdAt : Nat
deriving DecidableEq, Repr

/-- The Post document, mirroring the fields read and written in
`src/routes/posts.js`. -/
structure Post where
  id : String
  title : String
  content : String
  excerpt : String
  category : String
  status : String
  tags : List String
  featuredImage : String
  author : String
  views : Nat
  createdAt : Nat
  likes : List Like
  comments : List Comment
deriving DecidableEq, Repr

/-- The authenticated requester attached by the auth middleware:
the handler reads `req.user._id` and `req.user.role`. -/
structure Requester where
  id : String
  role : String
deriving DecidableEq, Repr

/-- JavaScript truthiness of an optional string field: `undefined` and the
empty string are falsy, every other string is truthy. -/
def jsTruthy : Option String → Bool
  | none => false
  | some s => s ≠ ""

/-- JavaScript `String.prototype.split(',')` on the character list: splitting
an empty string gives one empty group, and each comma starts a new group. -/
def splitCommaChars : List Char → List (List Char)
  | [] => [[]]
  | c :: cs =>
    match splitCommaChars cs with
    | [] => if c == ',' then [[], []] else [[c]]
    | g :: gs => if c == ',' then [] :: g :: gs else (c :: g) :: gs

/-- `String.prototype.trim`: strip whitespace from both ends. -/
def trimChars (l : List Char) : List Char :=
  ((l.dropWhile Char.isWhitespace).reverse.dropWhile Char.isWhitespace).reverse

/-- `tags.split(',')` from the query-builder (`$in` filter; no trimming). -/
def splitComma (s : String) : List String :=
  (splitCommaChars s.data).map String.mk

/-- `tags.split(',').map(tag => tag.trim())` from the source. -/
def splitTags (s : String) : List String :=
  (splitCommaChars s.data).map (fun g => String.mk (trimChars g))

/-- `Post.find({_id}).findFirst` — look a post up by id (Mongo `_id` lookup). -/
def findPost (store : List Post) (pid : String) : Option Post :=
  store.find? (fun p => p.id == pid)

/-- `findByIdAndUpdate`: rewrite the (unique) document with the given id. -/
def updateById (pid : String) (f : Post → Post) : List Post → List Post
  | [] => []
  | p :: ps => if p.id == pid then f p :: ps else p :: updateById pid f ps

/-- `findByIdAndDelete`: remove the (unique) document with the given id. -/
def deleteById (pid : String) : List Post → List Post
  | [] => []
  | p :: ps => if p.id == pid then ps else p :: deleteById pid ps

/-- Request body of `POST /api/posts` (create). -/
structure CreateBody where
  title : String
  content : String
  excerpt : String
  tags : Option String
  category : String
  status : Option String
  featuredImage : String
deriving DecidableEq, Repr

/-- The `new Post({...})` construction in `router.post('/')`:
`tags: tags ? tags.split(',').map(tag => tag.trim()) : []` and
`status: status || 'draft'`. -/
def createPost (b : CreateBody) (authorId : String) (pid : String) (now : Nat) : Post :=
  { id := pid
    title := b.title
    content := b.content
    excerpt := b.excerpt
    tags := if jsTruthy b.tags then splitTags (b.tags.getD "") else []
    category := b.category
    status := if jsTruthy b.status then b.status.getD "" else "draft"
    featuredImage := b.featuredImage
    author := authorId
    views := 0
    createdAt := now
    likes := []
    comments := [] }

/-- Request body of `PUT /api/posts/:id` (update); every field may be absent. -/
structure UpdateBody where
  title : Option String
  content : Option String
  excerpt : Option String
  tags : Option String
  category : Option String
  status : Option String
  featuredImage : Option String
deriving DecidableEq, Repr

/-- The update document passed to `findByIdAndUpdate` in `router.put('/:id')`.
Mongoose drops `undefined` fields from the update, so an absent body field
leaves the stored field unchanged;
`tags: tags ? tags.split(',').map(tag => tag.trim()) : post.tags`. -/
def applyUpdate (p : Post) (b : UpdateBody) : Post :=
  { p with
    title := b.title.getD p.title
    content := b.content.getD p.content
    excerpt := b.excerpt.getD p.excerpt
    tags := if jsTruthy b.tags then splitTags (b.tags.getD "") else p.tags
    category := b.category.getD p.category
    status := b.status.getD p.status
    featuredImage := b.featuredImage.getD p.featuredImage }

/-- Ownership check from the source, negated:
`post.author.toString() !== req.user._id.toString() && req.user.role !== 'admin'`
guards the 403 branch, so the mutation is allowed exactly when the requester
is the author or an admin. -/
def authorized (ownerId : String) (u : Requester) : Bool :=
  ownerId == u.id || u.role == "admin"

/-- Result of a mutation handler: HTTP status and the store after the request. -/
structure MutResult where
  status : Nat
  store : List Post
deriving DecidableEq, Repr

/-- `router.put('/:id')`: 404 when the post is missing, 403 for a non-owner
non-admin, otherwise `findByIdAndUpdate` with the update document. -/
def updatePost (store : List Post) (pid : String) (u : Requester) (b : UpdateBody) :
    MutResult :=
  match findPost store pid with
  | none => { status := 404, store := store }
  | some post =>
    if ¬ authorized post.author u then
      { status := 403, store := store }
    else
      { status := 200, store := updateById pid (fun p => applyUpdate p b) store }

/-- `router.delete('/:id')`: 404 when the post is missing, 403 for a non-owner
non-admin, otherwise `findByIdAndDelete`. -/
def deletePost (store : List Post) (pid : String) (u : Requester) : MutResult :=
  match findPost store pid with
  | none => { status := 404, store := store }
  | some post =>
    if ¬ authorized post.author u then
      { status := 403, store := store }
    else
      { status := 200, store := deleteById pid store }

/-- JavaScript `Array.prototype.findIndex`, with `-1` rendered as `none`. -/
def findIndexJs (p : α → Bool) : List α → Option Nat
  | [] => none
  | a :: l => if p a then some 0 else (findIndexJs p l).map (· + 1)

/-- Result of the like-toggle handler: status, new store, and the
`{ likes, isLiked }` response payload. -/
structure LikeResult where
  status : Nat
  store : List Post
  likes : Nat
  isLiked : Bool
deriving DecidableEq, Repr

/-- The in-place mutation of `post.likes` in `router.post('/:id/like')`:
`findIndex` on the requester's id, then `splice(likeIndex, 1)` when found
(unlike) and `push({ user })` when not (like). -/
def toggleLikes (likes : List Like) (uid : String) : List Like :=
  match findIndexJs (fun l => l.user == uid) likes with
  | some i => likes.eraseIdx i
  | none => likes ++ [{ user := uid }]

/-- `router.post('/:id/like')`: 404 when the post is missing, otherwise toggle
the requester's like entry and answer with the new `post.likes.length` and
`isLiked: likeIndex === -1`. -/
def likePost (store : List Post) (pid : String) (u : Requester) : LikeResult :=
  match findPost store pid with
  | none => { status := 404, store := store, likes := 0, isLiked := false }
  | some post =>
    let idx := findIndexJs (fun l => l.user == u.id) post.likes
    let newLikes := toggleLikes post.likes u.id
    { status := 200
      store := updateById pid (fun p => { p with likes := newLikes }) store
      likes := newLikes.length
      isLiked := idx.isNone }

/-- Result of the comment-add handler: status, new store, and the returned
comment (`post.comments[post.comments.length - 1]`) on success. -/
structure CommentResult where
  status : Nat
  store : List Post
  comment : Option Comment
deriving DecidableEq, Repr

/-- Modelled from the spec: the Post schema (`src/models/Post.js` is not part
of the sources) requires each comment's `content` to be a non-empty string, so
`post.save()` after pushing a comment with absent or empty `content` rejects
with a ValidationError, which `router.post('/:id/comment')` maps to 400.
A freshly generated id and `createdAt: now` also come from the schema. -/
def commentContentOk : Option String → Bool
  | none => false
  | some s => s ≠ ""

/-- `router.post('/:id/comment')`: 404 when the post is missing; push
`{ user: req.user._id, content }` and save — a save rejected by the schema
(empty or absent content) is caught and answered with 400 and no change;
on success the handler returns 201 and the last element of `post.comments`. -/
def addComment (store : List Post) (pid : String) (u : Requester)
    (content : Option String) (freshId : String) (now : Nat) : CommentResult :=
  match findPost store pid with
  | none => { status := 404, store := store, comment := none }
  | some post =>
    if ¬ commentContentOk content then
      { status := 400, store := store, comment := none }
    else
      let c : Comment :=
        { id := freshId, user := u.id, content := content.getD "", createdAt := now }
      let newComments := post.comments ++ [c]
      { status := 201
        store := updateById pid (fun p => { p with comments := newComments }) store
        comment := newComments.getLast? }

/-- Mongoose id casting for a route parameter: a raw string casts to an
ObjectId iff it is a 24-character hex string (or a 12-character byte string);
anything else throws a CastError inside `findById`. -/
def castsToObjectId (s : String) : Bool :=
  (s.length == 24 && s.data.all (fun c => c.isDigit
      || ("abcdefABCDEF".data.contains c))) || s.length == 12

/-- Result of the single-post fetch: status and the store after the
view-increment save. -/
structure GetResult where
  status : Nat
  store : List Post
  post : Option Post
deriving DecidableEq, Repr

/-- `router.get('/:id')`: `findById` throws a CastError on a malformed id,
which the route's own `catch` answers with 500 (the global CastError → 400
handler is unreachable from this route); a missing post yields 404; otherwise
`post.views += 1` is saved and the post is returned. -/
def getPostById (store : List Post) (rawId : String) : GetResult :=
  if ¬ castsToObjectId rawId then
    { status := 500, store := store, post := none }
  else
    match findPost store rawId with
    | none => { status := 404, store := store, post := none }
    | some post =>
      let post' := { post with views := post.views + 1 }
      { status := 200
        store := updateById rawId (fun p => { p with views := p.views + 1 }) store
        post := some post' }

/-- Mongoose `post.comments.id(commentId)`: first subdocument with that id. -/
def findCommentById (comments : List Comment) (cid : String) : Option Comment :=
  comments.find? (fun c => c.id == cid)

/-- Mongoose `comment.remove()` on the subdocument found by `.id(commentId)`:
remove the first comment with that id from the sequence. -/
def removeCommentById (cid : String) : List Comment → List Comment
  | [] => []
  | c :: cs => if c.id == cid then cs else c :: removeCommentById cid cs

/-- `router.delete('/:id/comment/:commentId')`: 404 when the post or the
comment is missing, 403 when the requester is neither the comment's author nor
an admin, otherwise remove the comment and save. -/
def deleteComment (store : List Post) (pid : String) (cid : String)
    (u : Requester) : MutResult :=
  match findPost store pid with
  | none => { status := 404, store := store }
  | some post =>
    match findCommentById post.comments cid with
    | none => { status := 404, store := store }
    | some c =>
      if ¬ authorized c.user u then
        { status := 403, store := store }
      else
        { status := 200
          store := updateById pid
            (fun p => { p with comments := removeCommentById cid p.comments }) store }

/-- One token of the regular-expression fragment this model covers: a literal
character or the wildcard `.`.  `new RegExp(category, 'i')` builds a full
JavaScript regex from the raw query parameter; the model is faithful to it on
every pattern whose only metacharacter is `.`. -/
inductive RTok where
  | lit (c : Char)
  | wild
deriving DecidableEq, Repr

/-- Characters that JavaScript regular expressions treat specially, including
the quantifier braces (written here as hex escapes); a pattern avoiding all of
them is a plain literal. -/
def regexMeta : List Char :=
  ['.', '*', '+', '?', '(', ')', '[', ']', '^', '$', '|', '\\', '\x7b', '\x7d']

/-- Parse a pattern string into tokens, reading `.` as the wildcard and every
other character as a literal. -/
def toPattern (s : String) : List RTok :=
  s.data.map (fun c => if c == '.' then RTok.wild else RTok.lit c)

/-- Case-insensitive match of one token against one character (the `'i'` flag
of `new RegExp(category, 'i')`). -/
def tokMatchI : RTok → Char → Bool
  | RTok.lit c, d => c.toLower == d.toLower
  | RTok.wild, _ => true

/-- Match the token sequence against a prefix of the character list. -/
def matchHere : List RTok → List Char → Bool
  | [], _ => true
  | _ :: _, [] => false
  | t :: ts, c :: cs => tokMatchI t c && matchHere ts cs

/-- Unanchored regex search: the pattern matches starting at some position. -/
def searchAt : List RTok → List Char → Bool
  | ts, [] => matchHere ts []
  | ts, c :: cs => matchHere ts (c :: cs) || searchAt ts cs

/-- `query.category = new RegExp(category, 'i')` with Mongo `$regex`
semantics: the post's `category` field matches when the pattern occurs
anywhere in it, case-insensitively. -/
def regexTestI (pat cat : String) : Bool :=
  searchAt (toPattern pat) cat.data

/-- For stating the spec's claim: `needle` occurs in `hay` as a
case-insensitive literal substring.  This follows the spec's words
("case-insensitive substring match"), to be compared with `regexTestI`. -/
def containsSubstrCI (hay needle : String) : Bool :=
  (List.range (hay.data.length + 1)).any (fun i =>
    ((hay.data.drop i).take needle.data.length).map Char.toLower
      == needle.data.map Char.toLower)

/-- Query parameters of `GET /api/posts`.  `page` and `limit` hold the result
of `parseInt` (with `none` for a missing or non-numeric parameter); the string
parameters are `none` when absent from the query string. -/
structure ListQuery where
  page : Option Nat
  limit : Option Nat
  category : Option String
  tags : Option String
  status : Option String
  author : Option String
deriving DecidableEq, Repr

/-- `parseInt(x) || d`: `NaN` (here `none`) and `0` both fall back to the
default, any other number is kept. -/
def jsOrDefaultNat (v : Option Nat) (d : Nat) : Nat :=
  match v with
  | none => d
  | some n => if n == 0 then d else n

/-- `const { status = 'published' } = req.query`: the destructuring default
applies only when the parameter is `undefined`, not when it is empty. -/
def effStatus (q : ListQuery) : String :=
  q.status.getD "published"

/-- The Mongo filter document built in `router.get('/')`: each condition is
added only when its (defaulted) parameter is truthy. -/
def matchesQuery (q : ListQuery) (p : Post) : Bool :=
  (if effStatus q ≠ "" then p.status == effStatus q else true)
  && (if jsTruthy q.category then regexTestI (q.category.getD "") p.category else true)
  && (if jsTruthy q.tags then
        (splitComma (q.tags.getD "")).any (fun t => p.tags.contains t)
      else true)
  && (if jsTruthy q.author then p.author == q.author.getD "" else true)

/-- Insertion step of `sort({ createdAt: -1 })` (newest first). -/
def insertByCreatedDesc (p : Post) : List Post → List Post
  | [] => [p]
  | q :: qs =>
    if p.createdAt ≤ q.createdAt then q :: insertByCreatedDesc p qs
    else p :: q :: qs

/-- `sort({ createdAt: -1 })`: sort the matching posts newest first. -/
def sortByCreatedDesc (l : List Post) : List Post :=
  l.foldr insertByCreatedDesc []

/-- `Math.ceil(total / limit)` on natural numbers (`limit ≥ 1` always holds
after the `|| 10` fallback). -/
def ceilDiv (a b : Nat) : Nat := (a + b - 1) / b

/-- Response payload of `GET /api/posts`: the page of posts and the
`pagination` object `{ current, pages, total }`. -/
structure ListResult where
  posts : List Post
  current : Nat
  pages : Nat
  total : Nat
deriving DecidableEq, Repr

/-- `router.get('/')`: default the numeric parameters, build the filter, sort
newest first, apply `skip((page - 1) * limit)` and `limit(limit)`, and count
the matching documents for the pagination metadata. -/
def listPosts (store : List Post) (q : ListQuery) : ListResult :=
  let page := jsOrDefaultNat q.page 1
  let lim := jsOrDefaultNat q.limit 10
  let skip := (page - 1) * lim
  let matching := store.filter (matchesQuery q)
  let total := matching.length
  { posts := ((sortByCreatedDesc matching).drop skip).take lim
    current := page
    pages := ceilDiv total lim
    total := total }

/-! Concrete data for witnesses. -/

/-- A sample post whose author is the user with id `"a"`. -/
def demoPost : Post :=
  { id := "p1", title := "t", content := "body", excerpt := "", category := "water"
    status := "draft", tags := ["a"], featuredImage := "", author := "a"
    views := 0, createdAt := 0, likes := [], comments := [] }

/-- The author of `demoPost`. -/
def demoAuthor : Requester := { id := "a", role := "user" }

/-- A non-owner, non-admin user. -/
def demoOther : Requester := { id := "b", role := "user" }

/-- An admin user distinct from the author. -/
def demoAdmin : Requester := { id := "c", role := "admin" }

/-- An update body with every field absent. -/
def emptyUpdate : UpdateBody :=
  { title := none, content := none, excerpt := none, tags := none
    category := none, status := none, featuredImage := none }

/-! Helper lemmas. -/

theorem map_author_updateById (pid : String) (f : Post → Post)
    (hf : ∀ p, (f p).author = p.author) :
    ∀ l : List Post, (updateById pid f l).map Post.author = l.map Post.author := by
  intro l
  induction l with
  | nil => rfl
  | cons p ps ih =>
    by_cases h : p.id == pid
    · simp [updateById, h, hf]
    · simp [updateById, h, ih]

/-! Claim theorems. -/

/-- Claim C1: for every PUT or DELETE on an existing post, a requester who is
neither the author nor an admin gets 403 with the store (hence the post, its
comments and likes) unchanged, and an author or admin requester gets the
mutation applied. -/
theorem put_delete_requires_owner_or_admin
    (store : List Post) (pid : String) (u : Requester) (b : UpdateBody)
    (post : Post) (hfind : findPost store pid = some post) :
    (authorized post.author u = false →
      updatePost store pid u b = { status := 403, store := store } ∧
      deletePost store pid u = { status := 403, store := store }) ∧
    (authorized post.author u = true →
      updatePost store pid u b =
        { status := 200, store := updateById pid (fun p => applyUpdate p b) store } ∧
      deletePost store pid u = { status := 200, store := deleteById pid store }) := by
  constructor <;> intro h <;>
    simp [updatePost, deletePost, hfind, h]

/-- Witness for C1: on a one-post store, the non-owner non-admin `demoOther`
gets 403 from both PUT and DELETE with the store unchanged. -/
theorem put_delete_requires_owner_or_admin_witness :
    updatePost [demoPost] "p1" demoOther emptyUpdate =
      { status := 403, store := [demoPost] } ∧
    deletePost [demoPost] "p1" demoOther =
      { status := 403, store := [demoPost] } :=
  (put_delete_requires_owner_or_admin [demoPost] "p1" demoOther emptyUpdate
    demoPost rfl).1 rfl

/-- Update body that supplies `tags` as the empty string. -/
def emptyTagsUpdate : UpdateBody := { emptyUpdate with tags := some "" }

/-- Counterexample to claim C4 as stated: with `tags` provided as the empty
string, the handler keeps the prior tags `["a"]` instead of replacing them
with the re-split `[""]`, because `tags ? ... : post.tags` treats the empty
string as falsy. -/
theorem update_tags_empty_string_counterexample :
    emptyTagsUpdate.tags = some "" ∧
    (updatePost [demoPost] "p1" demoAuthor emptyTagsUpdate).status = 200 ∧
    (updatePost [demoPost] "p1" demoAuthor emptyTagsUpdate).store.map Post.tags
      = [["a"]] ∧
    splitTags "" = [""] ∧
    (["a"] : List String) ≠ [""] := by
  refine ⟨rfl, rfl, rfl, rfl, by decide⟩

/-- Claim C4 (amended): a PUT never changes any post's `author`; when `tags`
is absent or the empty string the prior tags are retained unchanged; when
`tags` is a non-empty string it is re-split and replaces the prior sequence. -/
theorem update_author_frame_and_tags_rule
    (store : List Post) (pid : String) (u : Requester) (b : UpdateBody) :
    (updatePost store pid u b).store.map Post.author = store.map Post.author ∧
    (∀ p : Post, (applyUpdate p b).author = p.author) ∧
    (b.tags = none ∨ b.tags = some "" →
      ∀ p : Post, (applyUpdate p b).tags = p.tags) ∧
    (∀ s, b.tags = some s → s ≠ "" →
      ∀ p : Post, (applyUpdate p b).tags = splitTags s) := by
  refine ⟨?_, ?_, ?_, ?_⟩
  · unfold updatePost
    cases hfind : findPost store pid with
    | none => rfl
    | some post =>
      by_cases h : authorized post.author u
      · simp only [h, not_true_eq_false, Bool.false_eq_true, if_false]
        exact map_author_updateById pid (fun p => applyUpdate p b) (fun p => rfl) store
      · simp [h]
  · intro p; rfl
  · rintro (h | h) p <;> simp [applyUpdate, h, jsTruthy]
  · intro s hs hne p
    simp [applyUpdate, hs, jsTruthy, hne]

/-- Witness for C4 (amended): applied to the one-post store with an absent
`tags` field, the author column is unchanged and the tags are retained. -/
theorem update_author_frame_and_tags_rule_witness :
    (updatePost [demoPost] "p1" demoAuthor emptyUpdate).store.map Post.author
      = [demoPost].map Post.author ∧
    (applyUpdate demoPost emptyUpdate).tags = demoPost.tags :=
  ⟨(update_author_frame_and_tags_rule [demoPost] "p1" demoAuthor emptyUpdate).1,
   (update_author_frame_and_tags_rule [demoPost] "p1" demoAuthor emptyUpdate).2.2.1
     (Or.inl rfl) demoPost⟩

/-- Create body that supplies `tags` as the empty string. -/
def emptyTagsCreate : CreateBody :=
  { title := "t", content := "body", excerpt := "", tags := some ""
    category := "water", status := none, featuredImage := "" }

/-- Counterexample to claim C5 as stated: with `tags` provided as the empty
string (a valid create input — the validation rules place no constraint on
`tags`), the created post's tags are `[]`, not the trimmed split `[""]` of the
input string. -/
theorem create_tags_empty_string_counterexample :
    emptyTagsCreate.tags = some "" ∧
    (createPost emptyTagsCreate "a" "p9" 5).tags = [] ∧
    splitTags "" = [""] ∧
    ([] : List String) ≠ [""] := by
  refine ⟨rfl, rfl, rfl, by decide⟩

/-- Claim C5 (amended): the created post's tags are the trimmed comma-split of
the input when `tags` is a non-empty string, and the empty sequence when
`tags` is absent or the empty string; `status` defaults to draft when not
supplied. -/
theorem create_tags_and_status_default
    (b : CreateBody) (authorId pid : String) (now : Nat) :
    (b.tags = none ∨ b.tags = some "" → (createPost b authorId pid now).tags = []) ∧
    (∀ s, b.tags = some s → s ≠ "" →
      (createPost b authorId pid now).tags = splitTags s) ∧
    (b.status = none → (createPost b authorId pid now).status = "draft") ∧
    (createPost b authorId pid now).author = authorId := by
  refine ⟨?_, ?_, ?_, rfl⟩
  · rintro (h | h) <;> simp [createPost, h, jsTruthy]
  · intro s hs hne
    simp [createPost, hs, jsTruthy, hne]
  · intro h
    simp [createPost, h, jsTruthy]

/-- Witness for C5 (amended): on a create body with `tags := some ""` and no
`status`, the created post has no tags and status draft. -/
theorem create_tags_and_status_default_witness :
    (createPost emptyTagsCreate "a" "p9" 5).tags = [] ∧
    (createPost emptyTagsCreate "a" "p9" 5).status = "draft" :=
  ⟨(create_tags_and_status_default emptyTagsCreate "a" "p9" 5).1 (Or.inr rfl),
   (create_tags_and_status_default emptyTagsCreate "a" "p9" 5).2.2.1 rfl⟩

/-- Claim C7: the spec's error taxonomy says an id cast failure is answered
with 400, but `router.get('/:id')` catches the CastError thrown by `findById`
in its own `catch` block and answers 500, so the global CastError → 400
handler never sees it. -/
theorem get_malformed_id_returns_500
    (store : List Post) (rawId : String) (h : castsToObjectId rawId = false) :
    (getPostById store rawId).status = 500 ∧
    (getPostById store rawId).status ≠ 400 ∧
    (getPostById store rawId).store = store := by
  simp [getPostById, h]

/-- Witness for C7: the three-character id `"xyz"` fails the ObjectId cast and
the fetch answers 500, leaving the store unchanged. -/
theorem get_malformed_id_returns_500_witness :
    (getPostById [demoPost] "xyz").status = 500 ∧
    (getPostById [demoPost] "xyz").status ≠ 400 ∧
    (getPostById [demoPost] "xyz").store = [demoPost] :=
  get_malformed_id_returns_500 [demoPost] "xyz" rfl

theorem getLast?_append_single (l : List α) (a : α) : (l ++ [a]).getLast? = some a :=
  List.getLast?_concat l

/-- Claim C8: adding a comment to an existing post fails with 400 and no
change when `content` is absent or empty, and otherwise appends exactly the
one comment `{user, content, createdAt, id}` at the end of the sequence and
returns it. -/
theorem add_comment_requires_content_appends_one
    (store : List Post) (pid : String) (u : Requester) (content : Option String)
    (freshId : String) (now : Nat) (post : Post)
    (hfind : findPost store pid = some post) :
    ((content = none ∨ content = some "") →
      addComment store pid u content freshId now =
        { status := 400, store := store, comment := none }) ∧
    (∀ s, content = some s → s ≠ "" →
      addComment store pid u content freshId now =
        { status := 201
          store := updateById pid
            (fun p => { p with comments := post.comments ++
              [{ id := freshId, user := u.id, content := s, createdAt := now }] }) store
          comment :=
            some { id := freshId, user := u.id, content := s, createdAt := now } }) := by
  constructor
  · rintro (h | h) <;> simp [addComment, hfind, h, commentContentOk]
  · intro s hs hne
    simp [addComment, hfind, hs, commentContentOk, hne, getLast?_append_single]

/-- A comment by `demoOther` used in the comment witnesses. -/
def demoComment1 : Comment := { id := "c1", user := "b", content := "one", createdAt := 1 }

/-- A second comment by `demoOther`. -/
def demoComment2 : Comment := { id := "c2", user := "b", content := "two", createdAt := 2 }

/-- A comment by the post's author. -/
def demoComment3 : Comment := { id := "c3", user := "a", content := "three", createdAt := 3 }

/-- `demoPost` carrying three comments. -/
def demoPostWithComments : Post :=
  { demoPost with comments := [demoComment1, demoComment2, demoComment3] }

/-- Witness for C8: an empty `content` is rejected with 400 and no change, and
`content = "nice"` appends the fresh comment and returns it. -/
theorem add_comment_requires_content_appends_one_witness :
    addComment [demoPost] "p1" demoOther (some "") "c9" 7 =
      { status := 400, store := [demoPost], comment := none } ∧
    addComment [demoPost] "p1" demoOther (some "nice") "c9" 7 =
      { status := 201
        store := updateById "p1"
          (fun p => { p with comments :=
            [{ id := "c9", user := "b", content := "nice", createdAt := 7 }] }) [demoPost]
        comment := some { id := "c9", user := "b", content := "nice", createdAt := 7 } } :=
  ⟨(add_comment_requires_content_appends_one [demoPost] "p1" demoOther (some "")
      "c9" 7 demoPost rfl).1 (Or.inr rfl),
   (add_comment_requires_content_appends_one [demoPost] "p1" demoOther (some "nice")
      "c9" 7 demoPost rfl).2 "nice" rfl (by decide)⟩

theorem findCommentById_append (l₁ l₂ : List Comment) (c : Comment)
    (h : ∀ x ∈ l₁, x.id ≠ c.id) :
    findCommentById (l₁ ++ c :: l₂) c.id = some c := by
  induction l₁ with
  | nil => simp [findCommentById]
  | cons x xs ih =>
    have hx : (x.id == c.id) = false := by
      exact beq_eq_false_iff_ne.mpr (h x (by simp))
    simp only [findCommentById, List.cons_append] at *
    rw [List.find?_cons_of_neg _ (by simp [hx])]
    exact ih (fun y hy => h y (by simp [hy]))

theorem removeCommentById_append (l₁ l₂ : List Comment) (c : Comment)
    (h : ∀ x ∈ l₁, x.id ≠ c.id) :
    removeCommentById c.id (l₁ ++ c :: l₂) = l₁ ++ l₂ := by
  induction l₁ with
  | nil => simp [removeCommentById]
  | cons x xs ih =>
    have hx : (x.id == c.id) = false := beq_eq_false_iff_ne.mpr (h x (by simp))
    simp only [List.cons_append, removeCommentById, hx, Bool.false_eq_true, if_false,
      List.cons.injEq, true_and]
    exact ih (fun y hy => h y (by simp [hy]))

theorem updateById_congr (store : List Post) (pid : String) (post : Post)
    (f g : Post → Post) (hfind : findPost store pid = some post)
    (hfg : f post = g post) :
    updateById pid f store = updateById pid g store := by
  induction store with
  | nil => rfl
  | cons p ps ih =>
    by_cases h : (p.id == pid) = true
    · have hfp : findPost (p :: ps) pid = some p := by
        unfold findPost
        exact List.find?_cons_of_pos ps h
      have hp : p = post := by
        rw [hfp] at hfind
        exact Option.some.inj hfind
      subst hp
      simp [updateById, h, hfg]
    · have hfp : findPost ps pid = some post := by
        unfold findPost at hfind ⊢
        rwa [List.find?_cons_of_neg ps (by simpa using h)] at hfind
      simp [updateById, h, ih hfp]

/-- Claim C9: when the post exists, the comment with the given id exists, and
the requester is that comment's author or an admin, exactly that comment is
removed and every other comment keeps its relative order: the stored sequence
becomes the original with the single element deleted. -/
theorem delete_comment_removes_exactly_that_one
    (store : List Post) (pid : String) (u : Requester) (post : Post)
    (l₁ l₂ : List Comment) (c : Comment)
    (hfind : findPost store pid = some post)
    (hsplit : post.comments = l₁ ++ c :: l₂)
    (hfresh : ∀ x ∈ l₁, x.id ≠ c.id)
    (hauth : authorized c.user u = true) :
    deleteComment store pid c.id u =
      { status := 200
        store := updateById pid (fun p => { p with comments := l₁ ++ l₂ }) store } := by
  have hfc : findCommentById post.comments c.id = some c := by
    rw [hsplit]; exact findCommentById_append l₁ l₂ c hfresh
  have hrm : removeCommentById c.id post.comments = l₁ ++ l₂ := by
    rw [hsplit]; exact removeCommentById_append l₁ l₂ c hfresh
  have hup :
      updateById pid (fun p => { p with comments := removeCommentById c.id p.comments })
        store = updateById pid (fun p => { p with comments := l₁ ++ l₂ }) store :=
    updateById_congr store pid post _ _ hfind (by rw [hrm])
  simp [deleteComment, hfind, hfc, hauth, hup]

/-- Witness for C9: `demoOther` deletes its own middle comment `"c2"` out of
three; the first and third comments survive in order. -/
theorem delete_comment_removes_exactly_that_one_witness :
    deleteComment [demoPostWithComments] "p1" "c2" demoOther =
      { status := 200
        store := updateById "p1"
          (fun p => { p with comments := [demoComment1, demoComment3] })
          [demoPostWithComments] } :=
  delete_comment_removes_exactly_that_one [demoPostWithComments] "p1" demoOther
    demoPostWithComments [demoComment1] [demoComment3] demoComment2 rfl rfl
    (by decide) rfl

/-- Query with `status` present but empty, every other parameter absent. -/
def emptyStatusQuery : ListQuery :=
  { page := none, limit := none, category := none, tags := none
    status := some "", author := none }

/-- Query with every parameter absent. -/
def noStatusQuery : ListQuery := { emptyStatusQuery with status := none }

/-- Claim C10: a present-but-empty `status` parameter drops the status filter
entirely — the filter's verdict does not depend on the post's status, so any
status can be returned — while an absent parameter defaults the filter to
`published`. -/
theorem status_param_empty_drops_filter (q : ListQuery) :
    (q.status = some "" →
      ∀ (p : Post) (s : String),
        matchesQuery q { p with status := s } = matchesQuery q p) ∧
    (q.status = none →
      ∀ p : Post, matchesQuery q p = true → p.status = "published") := by
  constructor
  · intro h p s
    simp [matchesQuery, effStatus, h]
  · intro h p hp
    simp [matchesQuery, effStatus, h] at hp
    tauto

/-- Witness for C10: with `status=''` the filter ignores an archived status,
and with `status` absent a matching post is necessarily published. -/
theorem status_param_empty_drops_filter_witness :
    matchesQuery emptyStatusQuery { demoPost with status := "archived" }
      = matchesQuery emptyStatusQuery demoPost ∧
    ({ demoPost with status := "published" } : Post).status = "published" :=
  ⟨(status_param_empty_drops_filter emptyStatusQuery).1 rfl demoPost "archived",
   (status_param_empty_drops_filter noStatusQuery).2 rfl
     { demoPost with status := "published" } rfl⟩

/-- The post-toggle liked state: does any entry belong to this user? -/
def hasLike (likes : List Like) (uid : String) : Bool :=
  likes.any (fun l => l.user == uid)

theorem findIndexJs_isSome_eq_any (p : α → Bool) (l : List α) :
    (findIndexJs p l).isSome = l.any p := by
  induction l with
  | nil => rfl
  | cons a as ih =>
    by_cases h : p a = true
    · simp [findIndexJs, h]
    · simp only [findIndexJs, h, Bool.false_eq_true, if_false, List.any_cons, Bool.false_or]
      rw [← ih]
      cases findIndexJs p as <;> rfl

theorem findIndexJs_isNone_eq_not_any (p : α → Bool) (l : List α) :
    (findIndexJs p l).isNone = !(l.any p) := by
  rw [← findIndexJs_isSome_eq_any]
  cases findIndexJs p l <;> rfl

theorem toggleLikes_cons_pos (uid : String) (a : Like) (ls : List Like)
    (h : (a.user == uid) = true) : toggleLikes (a :: ls) uid = ls := by
  simp [toggleLikes, findIndexJs, h, List.eraseIdx]

theorem toggleLikes_cons_neg (uid : String) (a : Like) (ls : List Like)
    (h : (a.user == uid) = false) :
    toggleLikes (a :: ls) uid = a :: toggleLikes ls uid := by
  unfold toggleLikes
  simp only [findIndexJs, h, Bool.false_eq_true, if_false]
  cases hfi : findIndexJs (fun l => l.user == uid) ls <;>
    simp [hfi, List.eraseIdx]

theorem any_eq_false_of_countP_eq_zero (p : α → Bool) (l : List α)
    (h : l.countP p = 0) : l.any p = false := by
  rw [List.any_eq_false]
  intro x hx
  exact List.countP_eq_zero.mp h x hx

theorem toggleLikes_of_not_has (l : List Like) (uid : String)
    (h : hasLike l uid = false) :
    toggleLikes l uid = l ++ [{ user := uid }] := by
  induction l with
  | nil => rfl
  | cons a as ih =>
    simp only [hasLike, List.any_cons, Bool.or_eq_false_iff] at h
    rw [toggleLikes_cons_neg uid a as h.1, ih h.2]
    rfl

theorem length_toggleLikes_of_has (l : List Like) (uid : String)
    (h : hasLike l uid = true) :
    (toggleLikes l uid).length + 1 = l.length := by
  induction l with
  | nil => cases h
  | cons a as ih =>
    by_cases ha : (a.user == uid) = true
    · rw [toggleLikes_cons_pos uid a as ha]
      rfl
    · have ha' : (a.user == uid) = false := by simpa using ha
      have has2 : hasLike as uid = true := by
        simpa [hasLike, List.any_cons, ha'] using h
      rw [toggleLikes_cons_neg uid a as ha']
      simp only [List.length_cons]
      rw [← ih has2]

theorem hasLike_toggleLikes_of_has (l : List Like) (uid : String)
    (huniq : l.countP (fun x => x.user == uid) ≤ 1)
    (h : hasLike l uid = true) :
    hasLike (toggleLikes l uid) uid = false := by
  induction l with
  | nil => cases h
  | cons a as ih =>
    by_cases ha : (a.user == uid) = true
    · rw [toggleLikes_cons_pos uid a as ha]
      have hz : as.countP (fun x => x.user == uid) = 0 := by
        simp only [List.countP_cons, ha, if_true] at huniq
        omega
      exact any_eq_false_of_countP_eq_zero _ as hz
    · have ha' : (a.user == uid) = false := by simpa using ha
      have has2 : hasLike as uid = true := by
        simpa [hasLike, List.any_cons, ha'] using h
      have huniq2 : as.countP (fun x => x.user == uid) ≤ 1 := by
        simpa [List.countP_cons, ha'] using huniq
      rw [toggleLikes_cons_neg uid a as ha']
      simpa [hasLike, List.any_cons, ha'] using ih huniq2 has2

theorem hasLike_toggleLikes (l : List Like) (uid : String)
    (huniq : l.countP (fun x => x.user == uid) ≤ 1) :
    hasLike (toggleLikes l uid) uid = !(hasLike l uid) := by
  by_cases h : hasLike l uid = true
  · rw [h, hasLike_toggleLikes_of_has l uid huniq h]
    rfl
  · have h' : hasLike l uid = false := by simpa using h
    rw [h', toggleLikes_of_not_has l uid h']
    simp [hasLike]

theorem toggleLikes_toggleLikes_perm (l : List Like) (uid : String)
    (huniq : l.countP (fun x => x.user == uid) ≤ 1) :
    List.Perm (toggleLikes (toggleLikes l uid) uid) l := by
  induction l with
  | nil =>
    simp [toggleLikes, findIndexJs, List.eraseIdx]
  | cons a as ih =>
    by_cases ha : (a.user == uid) = true
    · rw [toggleLikes_cons_pos uid a as ha]
      have hz : as.countP (fun x => x.user == uid) = 0 := by
        simp only [List.countP_cons, ha, if_true] at huniq
        omega
      have has' : hasLike as uid = false := any_eq_false_of_countP_eq_zero _ as hz
      rw [toggleLikes_of_not_has as uid has']
      have haeq : a = ({ user := uid } : Like) := by
        cases a with
        | mk v => simpa using (eq_of_beq ha)
      rw [haeq]
      exact List.perm_append_singleton _ _
    · have ha' : (a.user == uid) = false := by simpa using ha
      have huniq2 : as.countP (fun x => x.user == uid) ≤ 1 := by
        simpa [List.countP_cons, ha'] using huniq
      rw [toggleLikes_cons_neg uid a as ha', toggleLikes_cons_neg uid a _ ha']
      exact List.Perm.cons a (ih huniq2)

theorem createPost_likes_nil (b : CreateBody) (authorId pid : String) (now : Nat) :
    (createPost b authorId pid now).likes = [] := rfl

theorem countP_toggleLikes_le_one (l : List Like) (uid : String)
    (h : l.countP (fun x => x.user == uid) ≤ 1) :
    (toggleLikes l uid).countP (fun x => x.user == uid) ≤ 1 := by
  induction l with
  | nil => simp [toggleLikes, findIndexJs, List.countP_cons]
  | cons a as ih =>
    by_cases ha : (a.user == uid) = true
    · rw [toggleLikes_cons_pos uid a as ha]
      simp only [List.countP_cons, ha, if_true] at h
      omega
    · have ha' : (a.user == uid) = false := by simpa using ha
      rw [toggleLikes_cons_neg uid a as ha']
      simp only [List.countP_cons, ha', Bool.false_eq_true, if_false, Nat.add_zero] at h ⊢
      exact ih h

theorem likePost_found (store : List Post) (pid : String) (u : Requester)
    (post : Post) (hfind : findPost store pid = some post) :
    likePost store pid u =
      { status := 200
        store := updateById pid
          (fun p => { p with likes := toggleLikes post.likes u.id }) store
        likes := (toggleLikes post.likes u.id).length
        isLiked := (findIndexJs (fun l => l.user == u.id) post.likes).isNone } := by
  simp [likePost, hfind]

theorem findPost_updateById (store : List Post) (pid : String) (post : Post)
    (f : Post → Post) (hfind : findPost store pid = some post)
    (hid : (f post).id = post.id) :
    findPost (updateById pid f store) pid = some (f post) := by
  induction store with
  | nil => cases hfind
  | cons p ps ih =>
    by_cases h : (p.id == pid) = true
    · have hfp : findPost (p :: ps) pid = some p := by
        unfold findPost
        exact List.find?_cons_of_pos ps h
      have hp : p = post := by
        rw [hfp] at hfind
        exact Option.some.inj hfind
      subst hp
      have hfpid : ((f p).id == pid) = true := by
        rw [hid]
        exact h
      unfold findPost
      simp only [updateById, h, if_true]
      exact List.find?_cons_of_pos ps hfpid
    · have hfp : findPost ps pid = some post := by
        unfold findPost at hfind ⊢
        rwa [List.find?_cons_of_neg ps (by simpa using h)] at hfind
      unfold findPost
      simp only [updateById, h, Bool.false_eq_true, if_false]
      rw [List.find?_cons_of_neg _ (by simpa using h)]
      exact ih hfp

/-- Claim C2: on an existing post whose like entries contain the requester at
most once, the toggle removes the requester's entry when present and appends
one when absent; the response reports the post-toggle count and
`isLiked` is true exactly when the entry was just added; and a second toggle
by the same user restores the like entries (as a set), the reported count,
and the liked state to their original values. -/
theorem like_toggle_round_trip
    (store : List Post) (pid : String) (u : Requester) (post : Post)
    (hfind : findPost store pid = some post)
    (huniq : post.likes.countP (fun l => l.user == u.id) ≤ 1) :
    (likePost store pid u).status = 200 ∧
    (likePost store pid u).likes = (toggleLikes post.likes u.id).length ∧
    (likePost store pid u).isLiked = !(hasLike post.likes u.id) ∧
    (likePost store pid u).store =
      updateById pid (fun p => { p with likes := toggleLikes post.likes u.id }) store ∧
    (hasLike post.likes u.id = true →
      hasLike (toggleLikes post.likes u.id) u.id = false ∧
      (toggleLikes post.likes u.id).length + 1 = post.likes.length) ∧
    (hasLike post.likes u.id = false →
      toggleLikes post.likes u.id = post.likes ++ [{ user := u.id }]) ∧
    (likePost (likePost store pid u).store pid u).likes = post.likes.length ∧
    (likePost (likePost store pid u).store pid u).isLiked = hasLike post.likes u.id ∧
    List.Perm (toggleLikes (toggleLikes post.likes u.id) u.id) post.likes := by
  have h1 := likePost_found store pid u post hfind
  have hfind2 : findPost (likePost store pid u).store pid =
      some { post with likes := toggleLikes post.likes u.id } := by
    rw [h1]
    exact findPost_updateById store pid post _ hfind rfl
  have h2 := likePost_found ((likePost store pid u).store) pid u _ hfind2
  have hperm := toggleLikes_toggleLikes_perm post.likes u.id huniq
  refine ⟨by rw [h1], by rw [h1], ?_, by rw [h1], ?_, ?_, ?_, ?_, hperm⟩
  · rw [h1]
    show (findIndexJs (fun l => l.user == u.id) post.likes).isNone
        = !(hasLike post.likes u.id)
    rw [findIndexJs_isNone_eq_not_any]
    rfl
  · intro h
    exact ⟨hasLike_toggleLikes_of_has post.likes u.id huniq h,
      length_toggleLikes_of_has post.likes u.id h⟩
  · intro h
    exact toggleLikes_of_not_has post.likes u.id h
  · rw [h2]
    show (toggleLikes (toggleLikes post.likes u.id) u.id).length = post.likes.length
    exact hperm.length_eq
  · rw [h2]
    show (findIndexJs (fun l => l.user == u.id) (toggleLikes post.likes u.id)).isNone
        = hasLike post.likes u.id
    rw [findIndexJs_isNone_eq_not_any]
    have hht := hasLike_toggleLikes post.likes u.id huniq
    simp only [hasLike] at hht ⊢
    rw [hht, Bool.not_not]

/-- Witness for C2: `demoOther` likes the unliked `demoPost` (count 1,
`isLiked` true) and a second toggle restores count 0, `isLiked` false, and
the original (empty) like entries. -/
theorem like_toggle_round_trip_witness :
    (likePost [demoPost] "p1" demoOther).likes = 1 ∧
    (likePost [demoPost] "p1" demoOther).isLiked = true ∧
    (likePost (likePost [demoPost] "p1" demoOther).store "p1" demoOther).likes = 0 ∧
    (likePost (likePost [demoPost] "p1" demoOther).store "p1" demoOther).isLiked = false ∧
    List.Perm (toggleLikes (toggleLikes demoPost.likes "b") "b") demoPost.likes :=
  ⟨rfl, rfl, rfl, rfl,
   (like_toggle_round_trip [demoPost] "p1" demoOther demoPost rfl
     (by decide)).2.2.2.2.2.2.2.2⟩

theorem length_insertByCreatedDesc (p : Post) (l : List Post) :
    (insertByCreatedDesc p l).length = l.length + 1 := by
  induction l with
  | nil => rfl
  | cons q qs ih =>
    unfold insertByCreatedDesc
    by_cases h : p.createdAt ≤ q.createdAt
    · simp [h, ih]
    · simp [h]

theorem length_sortByCreatedDesc (l : List Post) :
    (sortByCreatedDesc l).length = l.length := by
  induction l with
  | nil => rfl
  | cons p ps ih =>
    show (insertByCreatedDesc p (sortByCreatedDesc ps)).length = ps.length + 1
    rw [length_insertByCreatedDesc, ih]

theorem jsOrDefaultNat_pos (v : Option Nat) (d : Nat) (hd : 0 < d) :
    0 < jsOrDefaultNat v d := by
  cases v with
  | none => exact hd
  | some n =>
    unfold jsOrDefaultNat
    by_cases h : n = 0
    · simp [h, hd]
    · simp [h]
      omega

theorem ceilDiv_zero_left (b : Nat) (hb : 0 < b) : ceilDiv 0 b = 0 := by
  unfold ceilDiv
  exact Nat.div_eq_of_lt (by omega)

/-- Claim C3: the list endpoint's pagination metadata satisfies
`current` = the requested page after the `|| 1` fallback, `total` = the number
of matching posts, `pages` = ceil(total / limit); the number of returned posts
is `min limit (total - (current - 1) * limit)` (so page 2 with limit 5 against
12 matching posts returns 5 posts with `pages` 3); and when nothing matches
the result is empty with `pages` 0. -/
theorem list_pagination_spec (store : List Post) (q : ListQuery) :
    (listPosts store q).current = jsOrDefaultNat q.page 1 ∧
    (∀ n, q.page = some n → n ≠ 0 → (listPosts store q).current = n) ∧
    (listPosts store q).total = (store.filter (matchesQuery q)).length ∧
    (listPosts store q).pages =
      ceilDiv (store.filter (matchesQuery q)).length (jsOrDefaultNat q.limit 10) ∧
    (listPosts store q).posts.length =
      min (jsOrDefaultNat q.limit 10)
        ((store.filter (matchesQuery q)).length
          - (jsOrDefaultNat q.page 1 - 1) * jsOrDefaultNat q.limit 10) ∧
    ((store.filter (matchesQuery q)).length = 0 →
      (listPosts store q).posts = [] ∧ (listPosts store q).pages = 0) := by
  refine ⟨rfl, ?_, rfl, rfl, ?_, ?_⟩
  · intro n hn hne
    show jsOrDefaultNat q.page 1 = n
    rw [hn]
    simp [jsOrDefaultNat, hne]
  · show (((sortByCreatedDesc (store.filter (matchesQuery q))).drop
        ((jsOrDefaultNat q.page 1 - 1) * jsOrDefaultNat q.limit 10)).take
          (jsOrDefaultNat q.limit 10)).length = _
    rw [List.length_take, List.length_drop, length_sortByCreatedDesc]
  · intro h0
    have hnil : store.filter (matchesQuery q) = [] := List.length_eq_zero.mp h0
    constructor
    · show ((sortByCreatedDesc (store.filter (matchesQuery q))).drop
          ((jsOrDefaultNat q.page 1 - 1) * jsOrDefaultNat q.limit 10)).take
            (jsOrDefaultNat q.limit 10) = []
      rw [hnil]
      simp [sortByCreatedDesc]
    · show ceilDiv (store.filter (matchesQuery q)).length
          (jsOrDefaultNat q.limit 10) = 0
      rw [h0]
      exact ceilDiv_zero_left _ (jsOrDefaultNat_pos _ _ (by omega))

/-- A published post with creation time `n`, for the pagination witness. -/
def mkDemoPost (n : Nat) : Post :=
  { id := toString n, title := "", content := "", excerpt := "", category := ""
    status := "published", tags := [], featuredImage := "", author := "a"
    views := 0, createdAt := n, likes := [], comments := [] }

/-- Twelve published posts. -/
def demoStore12 : List Post := (List.range 12).map mkDemoPost

/-- The query `?page=2&limit=5`. -/
def demoQuery25 : ListQuery :=
  { page := some 2, limit := some 5, category := none, tags := none
    status := none, author := none }

/-- Witness for C3: page 2 with limit 5 against 12 matching posts returns 5
posts with `pages` 3 and `total` 12, and an empty store yields no posts with
`pages` 0. -/
theorem list_pagination_spec_witness :
    ((listPosts demoStore12 demoQuery25).current = 2 ∧
     (listPosts demoStore12 demoQuery25).total = 12 ∧
     (listPosts demoStore12 demoQuery25).posts.length = 5 ∧
     (listPosts demoStore12 demoQuery25).pages = 3) ∧
    ((listPosts [] demoQuery25).posts = [] ∧ (listPosts [] demoQuery25).pages = 0) :=
  ⟨⟨(list_pagination_spec demoStore12 demoQuery25).2.1 2 rfl (by decide),
    by decide, by decide, by decide⟩,
   (list_pagination_spec [] demoQuery25).2.2.2.2.2 rfl⟩

theorem matchHere_lit_iff (needle : List Char) :
    ∀ hay : List Char,
      (matchHere (needle.map RTok.lit) hay = true ↔
        (hay.take needle.length).map Char.toLower = needle.map Char.toLower) := by
  induction needle with
  | nil =>
    intro hay
    simp [matchHere]
  | cons n ns ih =>
    intro hay
    cases hay with
    | nil => simp [matchHere]
    | cons h hs =>
      simp only [List.map_cons, matchHere, Bool.and_eq_true, tokMatchI, beq_iff_eq,
        List.length_cons, List.take_succ_cons, List.cons.injEq]
      rw [ih hs]
      constructor
      · rintro ⟨h1, h2⟩
        exact ⟨h1.symm, h2⟩
      · rintro ⟨h1, h2⟩
        exact ⟨h1.symm, h2⟩

theorem searchAt_iff (ts : List RTok) :
    ∀ hay : List Char,
      (searchAt ts hay = true ↔
        ∃ i, i ≤ hay.length ∧ matchHere ts (hay.drop i) = true) := by
  intro hay
  induction hay with
  | nil =>
    constructor
    · intro h
      exact ⟨0, Nat.le_refl 0, h⟩
    · rintro ⟨i, hi, h⟩
      simpa [List.drop_nil] using h
  | cons c cs ih =>
    simp only [searchAt, Bool.or_eq_true, ih]
    constructor
    · rintro (h | ⟨i, hi, h⟩)
      · exact ⟨0, Nat.zero_le _, by simpa using h⟩
      · refine ⟨i + 1, by simpa using Nat.succ_le_succ hi, ?_⟩
        simpa [List.drop_succ_cons] using h
    · rintro ⟨i, hi, h⟩
      cases i with
      | zero => exact Or.inl (by simpa using h)
      | succ j =>
        refine Or.inr ⟨j, ?_, by simpa [List.drop_succ_cons] using h⟩
        simpa using Nat.le_of_succ_le_succ hi

theorem containsSubstrCI_iff (hay needle : String) :
    containsSubstrCI hay needle = true ↔
      ∃ i, i ≤ hay.data.length ∧
        ((hay.data.drop i).take needle.data.length).map Char.toLower
          = needle.data.map Char.toLower := by
  unfold containsSubstrCI
  rw [List.any_eq_true]
  constructor
  · rintro ⟨i, hi, h⟩
    exact ⟨i, Nat.lt_succ_iff.mp (List.mem_range.mp hi), by simpa using h⟩
  · rintro ⟨i, hi, h⟩
    exact ⟨i, List.mem_range.mpr (Nat.lt_succ_iff.mpr hi), by simpa using h⟩

/-- Query `?category=.` with `status=` empty so only the category filter acts. -/
def dotCategoryQuery : ListQuery :=
  { page := none, limit := none, category := some ".", tags := none
    status := some "", author := none }

/-- `demoPost` with category `"x"`, which does not contain a dot. -/
def demoPostX : Post := { demoPost with category := "x" }

/-- Counterexample to claim C6 as stated: the category parameter is used as a
regular-expression pattern, not escaped, so the parameter `"."` matches the
post category `"x"` even though `"x"` does not contain `"."` as a substring. -/
theorem category_regex_dot_counterexample :
    matchesQuery dotCategoryQuery demoPostX = true ∧
    regexTestI "." "x" = true ∧
    containsSubstrCI "x" "." = false := by
  refine ⟨by decide, by decide, by decide⟩

/-- Claim C6 (amended): the category filter matches the post's `category`
against the parameter as a case-insensitive regular expression; for a
parameter containing no regex metacharacter it coincides with
case-insensitive substring containment. -/
theorem category_filter_substring_when_no_meta (pat cat : String)
    (h : ∀ c ∈ pat.data, c ∉ regexMeta) :
    regexTestI pat cat = containsSubstrCI cat pat := by
  have hlit : toPattern pat = pat.data.map RTok.lit := by
    unfold toPattern
    apply List.map_congr_left
    intro c hc
    have hnd : c ≠ '.' := by
      intro he
      exact h c hc (by rw [he]; decide)
    have hb : (c == '.') = false := beq_eq_false_iff_ne.mpr hnd
    rw [hb]
    rfl
  have hiff : regexTestI pat cat = true ↔ containsSubstrCI cat pat = true := by
    unfold regexTestI
    rw [hlit, searchAt_iff, containsSubstrCI_iff]
    exact exists_congr fun i =>
      and_congr_right fun _ => matchHere_lit_iff pat.data (cat.data.drop i)
  cases hr : regexTestI pat cat with
  | true => exact (hiff.mp hr).symm
  | false =>
    cases hc : containsSubstrCI cat pat with
    | true => exact absurd (hiff.mpr hc) (by rw [hr]; intro hx; cases hx)
    | false => rfl

/-- Witness for C6 (amended): the metacharacter-free parameter `"water"`
agrees with case-insensitive substring containment on `"Groundwater"`. -/
theorem category_filter_substring_when_no_meta_witness :
    regexTestI "water" "Groundwater" = containsSubstrCI "Groundwater" "water" ∧
    regexTestI "water" "Groundwater" = true :=
  ⟨category_filter_substring_when_no_meta "water" "Groundwater" (by decide),
   by decide⟩

end Blog
